import Mathlib

/-!
Verification of the SailPoint documentation crawler (`src/Webscrapping.py`).

The development shallowly embeds the crawler: URLs are structured values,
the HTTP fetch layer, the content scorer, the Markdown file writer and the
PDF backend are external collaborators passed in as functions, and the
mutable instance state of `SailPointCrawler` (visited set, page counter,
accumulated page records, written artifacts) is threaded explicitly through
a fuel-indexed recursive function mirroring `crawl_page`.

Relevance scores are modelled as integers: no claim depends on
floating-point arithmetic, only on the scorer being a deterministic
function of the page.
-/

/-- A parsed URL as far as the crawler inspects one: `urlparse(url).netloc`
(host), the path, and the fragment that line 66 removes. -/
structure Url where
  host : String
  path : String
  frag : String
deriving DecidableEq

/-- An anchor href as it occurs in a page: either already absolute or
relative, to be resolved against the page URL. -/
inductive Href where
  | abs (u : Url)
  | rel (path : String) (frag : String)
deriving DecidableEq

/-- Model of the stdlib collaborator `urljoin(current_url, href)`: an
absolute href stands on its own, a relative one resolves against the host
of the current page. -/
def urljoin (cur : Url) (h : Href) : Url :=
  match h with
  | Href.abs u => u
  | Href.rel p f => { host := cur.host, path := p, frag := f }

/-- Fragment removal at line 66: split at the first hash and keep the front. -/
def stripFragment (u : Url) : Url := { u with frag := "" }

/-- The string form of a URL, as the heuristic scorer and the filename
sanitizer see it. -/
def urlString (u : Url) : String :=
  "https://" ++ u.host ++ u.path ++ (if u.frag == "" then "" else "#" ++ u.frag)

/-- The parsed HTML a fetch produces: the `<title>` element if any, the
`href` values of the anchor elements in document order, and the page text. -/
structure Html where
  title : Option String
  anchors : List Href
  body : String
deriving DecidableEq

/-- Result of `crawler.arun(url=url)`: success carries the html together
with the `markdown` and `cleaned_html` renderings; an unsuccessful result
or a raised exception is a failure with its message. -/
inductive FetchResult where
  | success (html : Html) (markdown : String) (cleanedHtml : String)
  | failure (errorMessage : String)
deriving DecidableEq

/-- One entry of `pages_data` (lines 106-113 of the source). -/
structure PageRecord where
  page_num : Nat
  url : Url
  title : String
  score : Int
  content : String
  depth : Nat
deriving DecidableEq

/-- The mutable instance state of `SailPointCrawler`, plus two observers:
`mdFiles` records the markdown filenames actually written, `fetchLog`
records every URL passed to the fetcher, in order. -/
structure CrawlState where
  visited : List Url
  pageCount : Nat
  pages : List PageRecord
  mdFiles : List String
  fetchLog : List Url
deriving DecidableEq

def initialState : CrawlState :=
  { visited := [], pageCount := 0, pages := [], mdFiles := [], fetchLog := [] }

/-- Model of `is_valid_url` (lines 49-52): the netloc of the URL equals the netloc of the seed. -/
def is_valid_url (domain : String) (u : Url) : Bool :=
  u.host == domain

/-- Model of `extract_links` (lines 54-71): resolve every anchor href against the
current URL, strip the fragment, and keep it when it is in-domain and not
yet visited.  There is no dedup step within the returned list. -/
def extract_links (domain : String) (visited : List Url) (currentUrl : Url)
    (anchors : List Href) : List Url :=
  (anchors.map (fun h => stripFragment (urljoin currentUrl h))).filter
    (fun u => is_valid_url domain u && !(decide (u ∈ visited)))

/-- Python's case-insensitive substring test `needle in hay` on lists of
characters. -/
def beginsWith : List Char → List Char → Bool
  | _, [] => true
  | [], _ :: _ => false
  | a :: asx, b :: bs => a == b && beginsWith asx bs

def containsSub : (hay needle : List Char) → Bool
  | [], needle => needle.isEmpty
  | c :: t, needle => beginsWith (c :: t) needle || containsSub t needle

def lowerList (s : List Char) : List Char := s.map Char.toLower

/-- Line 140: `sum(1 for keyword in keywords if keyword.lower() in
link.lower())` — how many configured keywords appear case-insensitively as
substrings of the URL string. -/
def urlHeuristic (keywords : List String) (link : Url) : Nat :=
  keywords.countP
    (fun k => containsSub (lowerList (urlString link).toList) (lowerList k.toList))

/-- Pair every link of `links[:10]` with its heuristic score
(lines 136-143). -/
def scoreLinks (keywords : List String) (links : List Url) : List (Url × Nat) :=
  (links.take 10).map (fun link => (link, urlHeuristic keywords link))

/-- Stable insertion used to model `list.sort(key=..., reverse=True)`:
an element is placed after every element of not-smaller score, so equal
scores keep their original relative order, exactly as Python's stable
sort does. -/
def insertScored {α : Type} (x : α × Nat) : List (α × Nat) → List (α × Nat)
  | [] => [x]
  | y :: ys => if y.2 < x.2 then x :: y :: ys else y :: insertScored x ys

/-- Model of line 146: sort by score, descending, stable. -/
def pySortDesc {α : Type} (l : List (α × Nat)) : List (α × Nat) :=
  l.foldl (fun acc x => insertScored x acc) []

/-- Lines 135-155: score the first ten links, sort descending, and take
the top five, which are then submitted for crawling in that order. -/
def selectLinks (keywords : List String) (links : List Url) : List (Url × Nat) :=
  (pySortDesc (scoreLinks keywords links)).take 5

/-- Python `a or b` on strings: the first operand unless it is falsy. -/
def pyOr (a b : String) : String := if a == "" then b else a

/-- Python `str.strip()` on the title text. -/
def pyStrip (s : String) : String :=
  String.mk (((s.data.dropWhile Char.isWhitespace).reverse.dropWhile
    Char.isWhitespace).reverse)

/-- The page record built at lines 106-113: `page_num` is the counter
value after the increment at line 79, the title defaults to `No Title`,
a scorer failure becomes a score of 0, and the content is
`result.markdown or result.cleaned_html or ''`. -/
def mkRecord (scoreFn : Html → Option Int) (url : Url) (depth : Nat)
    (count : Nat) (html : Html) (md cleaned : String) : PageRecord :=
  { page_num := count
    url := url
    title := match html.title with | some t => pyStrip t | none => "No Title"
    score := (scoreFn html).getD 0
    content := pyOr md (pyOr cleaned "")
    depth := depth }

/-- Lines 75-79: the URL enters the visited set and the page counter is
bumped the moment it is selected, before the fetch; the fetch log records
the fetcher invocation that follows. -/
def markVisited (url : Url) (s : CrawlState) : CrawlState :=
  { s with
    visited := url :: s.visited
    pageCount := s.pageCount + 1
    fetchLog := s.fetchLog ++ [url] }

/-- Line 114: `self.pages_data.append(page_data)`. -/
def appendRecord (r : PageRecord) (s : CrawlState) : CrawlState :=
  { s with pages := s.pages ++ [r] }

def sanitizeChar (c : Char) : Char := if c.isAlphanum then c else '_'

def pad3 (n : Nat) : String :=
  if n < 10 then "00" ++ toString n
  else if n < 100 then "0" ++ toString n
  else toString n

/-- Lines 166-167: the filename is the page number zero-padded to width 3, an
underscore, the URL with every non-alphanumeric character replaced by an
underscore and truncated to 100 characters, and the `.md` suffix. -/
def mdFileName (r : PageRecord) : String :=
  pad3 r.page_num ++ "_" ++ String.mk (((urlString r.url).toList.map sanitizeChar).take 100) ++ ".md"

/-- Line 117 / `save_markdown`: record the markdown artifact written for a
page. -/
def appendMd (r : PageRecord) (s : CrawlState) : CrawlState :=
  { s with mdFiles := s.mdFiles ++ [mdFileName r] }

/-- Model of `crawl_page` (lines 73-161), with explicit fuel: each recursive call
runs at `current_depth + 1`, and the depth guard at line 75 makes any call
with `current_depth > max_depth` a no-op, so fuel `max_depth + 1` at depth
0 reproduces the recursion exactly.

Control flow mirrored from the source: the visited/depth guard; mark
visited and invoke the fetcher; on failure return with no record; on
success append the page record, then attempt the markdown write — an
exception there is caught by the handler at line 160, abandoning the rest
of that page's processing; otherwise, when below max depth, extract links
(against the visited set as of this moment), select the top-scored five of
the first ten, and recurse over them in order. -/
def crawlPage (fetch : Url → FetchResult) (scoreFn : Html → Option Int)
    (mdWrite : PageRecord → Bool) (keywords : List String) (domain : String)
    (maxDepth : Nat) : Nat → Url → Nat → CrawlState → CrawlState
  | 0, _, _, s => s
  | fuel + 1, url, currentDepth, s =>
    if url ∈ s.visited ∨ maxDepth < currentDepth then s
    else
      let s1 := markVisited url s
      match fetch url with
      | FetchResult.failure _ => s1
      | FetchResult.success html md cleaned =>
        let record := mkRecord scoreFn url currentDepth s1.pageCount html md cleaned
        let s2 := appendRecord record s1
        if mdWrite record then
          let s3 := appendMd record s2
          if currentDepth < maxDepth then
            (selectLinks keywords (extract_links domain s3.visited url html.anchors)).foldl
              (fun acc ls =>
                crawlPage fetch scoreFn mdWrite keywords domain maxDepth fuel
                  ls.1 (currentDepth + 1) acc) s3
          else s3
        else s2

/-- The keyword list configured at lines 35-39. -/
def sailpointKeywords : List String :=
  ["connector", "Plugins", "Provisioning", "report", "integration",
   "API", "identity", "governance", "access", "security"]

/-- Model of `save_json_report` (lines 186-196), with the `crawl_date` timestamp
field left out: `total_pages` is `len(self.pages_data)` and `pages` is the
record list in discovery order. -/
structure JsonReport where
  base_url : Url
  total_pages : Nat
  pages : List PageRecord
deriving DecidableEq

def save_json_report (baseUrl : Url) (s : CrawlState) : JsonReport :=
  { base_url := baseUrl, total_pages := s.pages.length, pages := s.pages }

/-- How the PDF backend behaves for a run: it succeeds, raises
`ImportError` (reportlab missing), or raises some other exception while
building the document. -/
inductive PdfBehavior where
  | ok
  | importError
  | buildError (msg : String)
deriving DecidableEq

/-- Model of `generate_pdf_report` (lines 198-297): only `ImportError` is caught
(returning `None`); any other exception escapes the function. -/
def generate_pdf_report (b : PdfBehavior) : Except String (Option Unit) :=
  match b with
  | PdfBehavior.ok => Except.ok (some ())
  | PdfBehavior.importError => Except.ok none
  | PdfBehavior.buildError m => Except.error m

/-- The external collaborators of one run: fetcher, content scorer (which
may fail, line 101), markdown file writer (whether `write_text` succeeds
for a record), and the PDF backend. -/
structure Collab where
  fetch : Url → FetchResult
  scoreFn : Html → Option Int
  mdWrite : PageRecord → Bool
  pdf : PdfBehavior

/-- Everything a run leaves behind: the final crawler state (markdown
artifacts included), the JSON report written at line 332, and the outcome
of the PDF step at line 333 — an `error` value is an exception escaping
`crawl()` and aborting the run after the JSON report is on disk. -/
structure RunOutput where
  state : CrawlState
  report : JsonReport
  pdfResult : Except String (Option Unit)

/-- Model of `crawl()` and `main()` (lines 299-356): crawl from the seed at depth 0,
write the JSON report, then generate the PDF. -/
def runCrawler (c : Collab) (baseUrl : Url) (maxDepth : Nat) : RunOutput :=
  let s := crawlPage c.fetch c.scoreFn c.mdWrite sailpointKeywords baseUrl.host
    maxDepth (maxDepth + 1) baseUrl 0 initialState
  { state := s
    report := save_json_report baseUrl s
    pdfResult := generate_pdf_report c.pdf }

/-!  Unfolding equations for `crawlPage`, one per control-flow branch of
`crawl_page`.  -/

section Equations

variable (fetch : Url → FetchResult) (scoreFn : Html → Option Int)
variable (mdWrite : PageRecord → Bool) (keywords : List String) (domain : String)
variable (maxDepth : Nat)

theorem crawlPage_zero (url : Url) (d : Nat) (s : CrawlState) :
    crawlPage fetch scoreFn mdWrite keywords domain maxDepth 0 url d s = s := rfl

theorem crawlPage_guard (fuel : Nat) (url : Url) (d : Nat) (s : CrawlState)
    (hg : url ∈ s.visited ∨ maxDepth < d) :
    crawlPage fetch scoreFn mdWrite keywords domain maxDepth (fuel + 1) url d s = s := by
  rw [crawlPage]
  rw [if_pos hg]

theorem crawlPage_failure (fuel : Nat) (url : Url) (d : Nat) (s : CrawlState)
    (hvis : url ∉ s.visited) (hdep : d ≤ maxDepth) (msg : String)
    (hfe : fetch url = FetchResult.failure msg) :
    crawlPage fetch scoreFn mdWrite keywords domain maxDepth (fuel + 1) url d s
      = markVisited url s := by
  rw [crawlPage]
  rw [if_neg (by push_neg; exact ⟨hvis, hdep⟩)]
  simp only [hfe]

theorem crawlPage_mdfalse (fuel : Nat) (url : Url) (d : Nat) (s : CrawlState)
    (hvis : url ∉ s.visited) (hdep : d ≤ maxDepth)
    (html : Html) (md cleaned : String)
    (hfe : fetch url = FetchResult.success html md cleaned)
    (hmd : mdWrite (mkRecord scoreFn url d (s.pageCount + 1) html md cleaned) = false) :
    crawlPage fetch scoreFn mdWrite keywords domain maxDepth (fuel + 1) url d s
      = appendRecord (mkRecord scoreFn url d (s.pageCount + 1) html md cleaned)
          (markVisited url s) := by
  rw [crawlPage]
  rw [if_neg (by push_neg; exact ⟨hvis, hdep⟩)]
  simp only [hfe]
  have : (markVisited url s).pageCount = s.pageCount + 1 := rfl
  rw [this, hmd]
  simp

theorem crawlPage_atmax (fuel : Nat) (url : Url) (d : Nat) (s : CrawlState)
    (hvis : url ∉ s.visited) (hdep : d = maxDepth)
    (html : Html) (md cleaned : String)
    (hfe : fetch url = FetchResult.success html md cleaned)
    (hmd : mdWrite (mkRecord scoreFn url d (s.pageCount + 1) html md cleaned) = true) :
    crawlPage fetch scoreFn mdWrite keywords domain maxDepth (fuel + 1) url d s
      = appendMd (mkRecord scoreFn url d (s.pageCount + 1) html md cleaned)
          (appendRecord (mkRecord scoreFn url d (s.pageCount + 1) html md cleaned)
            (markVisited url s)) := by
  rw [crawlPage]
  rw [if_neg (by push_neg; exact ⟨hvis, le_of_eq hdep⟩)]
  simp only [hfe]
  have h1 : (markVisited url s).pageCount = s.pageCount + 1 := rfl
  rw [h1, hmd]
  rw [if_pos rfl]
  rw [if_neg (show ¬ d < maxDepth by omega)]

theorem crawlPage_recurse (fuel : Nat) (url : Url) (d : Nat) (s : CrawlState)
    (hvis : url ∉ s.visited) (hdep : d < maxDepth)
    (html : Html) (md cleaned : String)
    (hfe : fetch url = FetchResult.success html md cleaned)
    (hmd : mdWrite (mkRecord scoreFn url d (s.pageCount + 1) html md cleaned) = true) :
    crawlPage fetch scoreFn mdWrite keywords domain maxDepth (fuel + 1) url d s
      = (selectLinks keywords (extract_links domain
            (appendMd (mkRecord scoreFn url d (s.pageCount + 1) html md cleaned)
              (appendRecord (mkRecord scoreFn url d (s.pageCount + 1) html md cleaned)
                (markVisited url s))).visited url html.anchors)).foldl
          (fun acc ls =>
            crawlPage fetch scoreFn mdWrite keywords domain maxDepth fuel
              ls.1 (d + 1) acc)
          (appendMd (mkRecord scoreFn url d (s.pageCount + 1) html md cleaned)
            (appendRecord (mkRecord scoreFn url d (s.pageCount + 1) html md cleaned)
              (markVisited url s))) := by
  rw [crawlPage]
  rw [if_neg (by push_neg; exact ⟨hvis, le_of_lt hdep⟩)]
  simp only [hfe]
  have h1 : (markVisited url s).pageCount = s.pageCount + 1 := rfl
  rw [h1, hmd]
  rw [if_pos rfl]
  rw [if_pos hdep]

end Equations

/-- Fold preservation helper: a property stable under each step is stable
under the whole fold. -/
theorem foldl_preserve {α σ : Type} (P : σ → Prop) (f : σ → α → σ)
    (h : ∀ st a, P st → P (f st a)) :
    ∀ (l : List α) (st : σ), P st → P (List.foldl f st l) := by
  intro l
  induction l with
  | nil => intro st hst; exact hst
  | cons a t ih => intro st hst; exact ih (f st a) (h st a hst)

/-- The run invariant of the crawler state: the visited set and the fetch
log hold no duplicates, every fetched URL was first marked visited, page
records belong to visited URLs whose fetch succeeded, record depths respect
the depth bound, sequence numbers are positive, strictly increasing and
bounded by the page counter, the counter matches the visited set, and at
most one markdown file exists per record. -/
structure CrawlInv (fetch : Url → FetchResult) (maxDepth : Nat) (s : CrawlState) : Prop where
  visited_nodup : s.visited.Nodup
  fetchLog_nodup : s.fetchLog.Nodup
  fetchLog_visited : ∀ u ∈ s.fetchLog, u ∈ s.visited
  pages_url_nodup : (s.pages.map PageRecord.url).Nodup
  pages_visited : ∀ r ∈ s.pages, r.url ∈ s.visited
  pages_success : ∀ r ∈ s.pages, ∃ h m c, fetch r.url = FetchResult.success h m c
  pages_depth : ∀ r ∈ s.pages, r.depth ≤ maxDepth
  seq_pos : ∀ r ∈ s.pages, 1 ≤ r.page_num
  seq_sorted : List.Pairwise (fun a b => a < b) (s.pages.map PageRecord.page_num)
  seq_le : ∀ r ∈ s.pages, r.page_num ≤ s.pageCount
  count_eq : s.pageCount = s.visited.length
  pages_le : s.pages.length ≤ s.pageCount
  md_le : s.mdFiles.length ≤ s.pages.length

theorem crawlInv_initial (fetch : Url → FetchResult) (maxDepth : Nat) :
    CrawlInv fetch maxDepth initialState := by
  constructor <;> simp [initialState]

section InvStep

variable {fetch : Url → FetchResult} {maxDepth : Nat}

theorem inv_markVisited {s : CrawlState} {url : Url}
    (hs : CrawlInv fetch maxDepth s) (hvis : url ∉ s.visited) :
    CrawlInv fetch maxDepth (markVisited url s) := by
  obtain ⟨h1, h2, h3, h4, h5, h6, h7, h8, h9, h10, h11, h12, h13⟩ := hs
  refine ⟨?_, ?_, ?_, h4, ?_, h6, h7, h8, h9, ?_, ?_, ?_, h13⟩
  · exact List.nodup_cons.mpr ⟨hvis, h1⟩
  · refine List.Nodup.append h2 (List.nodup_singleton url) ?_
    intro a ha hb
    rw [List.mem_singleton] at hb
    exact hvis (hb ▸ h3 a ha)
  · intro u hu
    rcases List.mem_append.mp hu with h | h
    · exact List.mem_cons_of_mem _ (h3 u h)
    · rw [List.mem_singleton] at h
      exact h ▸ List.mem_cons_self _ _
  · intro r hr
    exact List.mem_cons_of_mem _ (h5 r hr)
  · intro r hr
    exact Nat.le_succ_of_le (h10 r hr)
  · simp [markVisited, h11]
  · exact Nat.le_succ_of_le h12

theorem inv_success (scoreFn : Html → Option Int) {s : CrawlState} {url : Url} {d : Nat}
    {html : Html} {md cleaned : String}
    (hs : CrawlInv fetch maxDepth s) (hvis : url ∉ s.visited) (hdep : d ≤ maxDepth)
    (hfe : fetch url = FetchResult.success html md cleaned) :
    CrawlInv fetch maxDepth
      (appendRecord (mkRecord scoreFn url d (s.pageCount + 1) html md cleaned)
        (markVisited url s)) := by
  have hm := inv_markVisited hs hvis
  obtain ⟨m1, m2, m3, m4, m5, m6, m7, m8, m9, m10, m11, m12, m13⟩ := hm
  have hpagesvis : ∀ r ∈ s.pages, r.url ∈ s.visited := hs.pages_visited
  have hseqle : ∀ r ∈ s.pages, r.page_num ≤ s.pageCount := hs.seq_le
  refine ⟨m1, m2, m3, ?_, ?_, ?_, ?_, ?_, ?_, ?_, m11, ?_, ?_⟩
  · -- url of the new record is fresh among record urls
    simp only [appendRecord, List.map_append]
    refine List.Nodup.append m4 (by simp) ?_
    intro a ha hb
    simp only [List.map_cons, List.map_nil, List.mem_singleton] at hb
    rw [List.mem_map] at ha
    obtain ⟨r, hr, rfl⟩ := ha
    have hb2 : r.url = url := hb
    exact hvis (hb2 ▸ hpagesvis r hr)
  · intro r hr
    simp only [appendRecord, List.mem_append] at hr
    rcases hr with h | h
    · exact m5 r h
    · rw [List.mem_singleton] at h
      subst h
      exact List.mem_cons_self _ _
  · intro r hr
    simp only [appendRecord, List.mem_append] at hr
    rcases hr with h | h
    · exact m6 r h
    · rw [List.mem_singleton] at h
      subst h
      exact ⟨html, md, cleaned, hfe⟩
  · intro r hr
    simp only [appendRecord, List.mem_append] at hr
    rcases hr with h | h
    · exact m7 r h
    · rw [List.mem_singleton] at h
      subst h
      exact hdep
  · intro r hr
    simp only [appendRecord, List.mem_append] at hr
    rcases hr with h | h
    · exact m8 r h
    · rw [List.mem_singleton] at h
      subst h
      exact Nat.succ_le_succ (Nat.zero_le _)
  · simp only [appendRecord, List.map_append]
    rw [List.pairwise_append]
    refine ⟨m9, by simp, ?_⟩
    intro a ha b hb
    simp only [List.map_cons, List.map_nil, List.mem_singleton] at hb
    rw [List.mem_map] at ha
    obtain ⟨r, hr, rfl⟩ := ha
    subst hb
    exact Nat.lt_succ_of_le (hseqle r hr)
  · intro r hr
    simp only [appendRecord, List.mem_append] at hr
    rcases hr with h | h
    · exact m10 r h
    · rw [List.mem_singleton] at h
      subst h
      rfl
  · simp only [appendRecord, List.length_append, List.length_singleton]
    exact Nat.succ_le_succ hs.pages_le
  · simp only [appendRecord]
    have : s.mdFiles.length ≤ s.pages.length := hs.md_le
    simp only [List.length_append, List.length_singleton]
    omega

theorem inv_appendMd (scoreFn : Html → Option Int) {s : CrawlState} {url : Url} {d : Nat}
    {html : Html} {md cleaned : String}
    (hs : CrawlInv fetch maxDepth s) (hvis : url ∉ s.visited) (hdep : d ≤ maxDepth)
    (hfe : fetch url = FetchResult.success html md cleaned) :
    CrawlInv fetch maxDepth
      (appendMd (mkRecord scoreFn url d (s.pageCount + 1) html md cleaned)
        (appendRecord (mkRecord scoreFn url d (s.pageCount + 1) html md cleaned)
          (markVisited url s))) := by
  have h2 := inv_success scoreFn hs hvis hdep hfe
  obtain ⟨a1, a2, a3, a4, a5, a6, a7, a8, a9, a10, a11, a12, a13⟩ := h2
  refine ⟨a1, a2, a3, a4, a5, a6, a7, a8, a9, a10, a11, a12, ?_⟩
  simp only [appendMd, List.length_append, List.length_singleton]
  have : s.mdFiles.length ≤ s.pages.length := hs.md_le
  simp only [appendRecord, markVisited, List.length_append, List.length_singleton]
  omega

end InvStep

/-- The invariant is preserved by `crawlPage`, whatever the fuel, URL,
depth and starting state. -/
theorem crawlPage_inv (fetch : Url → FetchResult) (scoreFn : Html → Option Int)
    (mdWrite : PageRecord → Bool) (keywords : List String) (domain : String)
    (maxDepth : Nat) :
    ∀ (fuel : Nat) (url : Url) (d : Nat) (s : CrawlState),
      CrawlInv fetch maxDepth s →
      CrawlInv fetch maxDepth
        (crawlPage fetch scoreFn mdWrite keywords domain maxDepth fuel url d s) := by
  intro fuel
  induction fuel with
  | zero => intro url d s hs; exact hs
  | succ fuel ih =>
    intro url d s hs
    by_cases hg : url ∈ s.visited ∨ maxDepth < d
    · rw [crawlPage_guard fetch scoreFn mdWrite keywords domain maxDepth fuel url d s hg]
      exact hs
    · push_neg at hg
      obtain ⟨hvis, hdep⟩ := hg
      cases hfe : fetch url with
      | failure msg =>
        rw [crawlPage_failure fetch scoreFn mdWrite keywords domain maxDepth fuel url d s
          hvis hdep msg hfe]
        exact inv_markVisited hs hvis
      | success html md cleaned =>
        by_cases hmd : mdWrite (mkRecord scoreFn url d (s.pageCount + 1) html md cleaned) = true
        · by_cases hlt : d < maxDepth
          · rw [crawlPage_recurse fetch scoreFn mdWrite keywords domain maxDepth fuel url d s
              hvis hlt html md cleaned hfe hmd]
            exact foldl_preserve _ _
              (fun st a hst => ih a.1 (d + 1) st hst) _ _
              (inv_appendMd scoreFn hs hvis hdep hfe)
          · have hdeq : d = maxDepth := Nat.le_antisymm hdep (Nat.le_of_not_lt hlt)
            rw [crawlPage_atmax fetch scoreFn mdWrite keywords domain maxDepth fuel url d s
              hvis hdeq html md cleaned hfe hmd]
            exact inv_appendMd scoreFn hs hvis hdep hfe
        · rw [crawlPage_mdfalse fetch scoreFn mdWrite keywords domain maxDepth fuel url d s
            hvis hdep html md cleaned hfe (Bool.not_eq_true _ ▸ eq_false_of_ne_true hmd)]
          exact inv_success scoreFn hs hvis hdep hfe

/-- The invariant holds of the final state of every run. -/
theorem runCrawler_inv (c : Collab) (baseUrl : Url) (maxDepth : Nat) :
    CrawlInv c.fetch maxDepth (runCrawler c baseUrl maxDepth).state :=
  crawlPage_inv c.fetch c.scoreFn c.mdWrite sailpointKeywords baseUrl.host maxDepth
    (maxDepth + 1) baseUrl 0 initialState (crawlInv_initial c.fetch maxDepth)

/-- The geometric page bound of the traversal: one page per call plus at
most five children per level of remaining fuel. -/
def pagesBound : Nat → Nat
  | 0 => 0
  | f + 1 => 1 + 5 * pagesBound f

theorem foldl_pages_le {α : Type} (f : CrawlState → α → CrawlState) (k : Nat)
    (h : ∀ st a, (f st a).pages.length ≤ st.pages.length + k) :
    ∀ (l : List α) (st : CrawlState),
      (List.foldl f st l).pages.length ≤ st.pages.length + l.length * k := by
  intro l
  induction l with
  | nil => intro st; simp
  | cons a t ih =>
    intro st
    calc (List.foldl f (f st a) t).pages.length
        ≤ (f st a).pages.length + t.length * k := ih (f st a)
      _ ≤ st.pages.length + k + t.length * k := by
          exact Nat.add_le_add_right (h st a) _
      _ = st.pages.length + (t.length + 1) * k := by ring
      _ = st.pages.length + (a :: t).length * k := by simp

theorem crawlPage_pages_le (fetch : Url → FetchResult) (scoreFn : Html → Option Int)
    (mdWrite : PageRecord → Bool) (keywords : List String) (domain : String)
    (maxDepth : Nat) :
    ∀ (fuel : Nat) (url : Url) (d : Nat) (s : CrawlState),
      (crawlPage fetch scoreFn mdWrite keywords domain maxDepth fuel url d s).pages.length
        ≤ s.pages.length + pagesBound fuel := by
  intro fuel
  induction fuel with
  | zero => intro url d s; simp [pagesBound, crawlPage]
  | succ fuel ih =>
    intro url d s
    by_cases hg : url ∈ s.visited ∨ maxDepth < d
    · rw [crawlPage_guard fetch scoreFn mdWrite keywords domain maxDepth fuel url d s hg]
      exact Nat.le_add_right _ _
    · push_neg at hg
      obtain ⟨hvis, hdep⟩ := hg
      cases hfe : fetch url with
      | failure msg =>
        rw [crawlPage_failure fetch scoreFn mdWrite keywords domain maxDepth fuel url d s
          hvis hdep msg hfe]
        exact Nat.le_add_right _ _
      | success html md cleaned =>
        by_cases hmd : mdWrite (mkRecord scoreFn url d (s.pageCount + 1) html md cleaned) = true
        · by_cases hlt : d < maxDepth
          · rw [crawlPage_recurse fetch scoreFn mdWrite keywords domain maxDepth fuel url d s
              hvis hlt html md cleaned hfe hmd]
            have hsel : (selectLinks keywords (extract_links domain
                (appendMd (mkRecord scoreFn url d (s.pageCount + 1) html md cleaned)
                  (appendRecord (mkRecord scoreFn url d (s.pageCount + 1) html md cleaned)
                    (markVisited url s))).visited url html.anchors)).length ≤ 5 := by
              unfold selectLinks
              exact List.length_take_le _ _
            have hfold := foldl_pages_le
              (fun acc ls =>
                crawlPage fetch scoreFn mdWrite keywords domain maxDepth fuel
                  ls.1 (d + 1) acc)
              (pagesBound fuel)
              (fun st a => ih a.1 (d + 1) st)
              (selectLinks keywords (extract_links domain
                (appendMd (mkRecord scoreFn url d (s.pageCount + 1) html md cleaned)
                  (appendRecord (mkRecord scoreFn url d (s.pageCount + 1) html md cleaned)
                    (markVisited url s))).visited url html.anchors))
              (appendMd (mkRecord scoreFn url d (s.pageCount + 1) html md cleaned)
                (appendRecord (mkRecord scoreFn url d (s.pageCount + 1) html md cleaned)
                  (markVisited url s)))
            have hbase : (appendMd (mkRecord scoreFn url d (s.pageCount + 1) html md cleaned)
                (appendRecord (mkRecord scoreFn url d (s.pageCount + 1) html md cleaned)
                  (markVisited url s))).pages.length = s.pages.length + 1 := by
              simp [appendMd, appendRecord, markVisited]
            rw [hbase] at hfold
            have : (selectLinks keywords (extract_links domain
                (appendMd (mkRecord scoreFn url d (s.pageCount + 1) html md cleaned)
                  (appendRecord (mkRecord scoreFn url d (s.pageCount + 1) html md cleaned)
                    (markVisited url s))).visited url html.anchors)).length * pagesBound fuel
                ≤ 5 * pagesBound fuel :=
              Nat.mul_le_mul_right _ hsel
            calc _ ≤ s.pages.length + 1 + _ := hfold
              _ ≤ s.pages.length + 1 + 5 * pagesBound fuel := by
                  exact Nat.add_le_add_left this _
              _ = s.pages.length + pagesBound (fuel + 1) := by
                  simp [pagesBound]; ring
          · have hdeq : d = maxDepth := Nat.le_antisymm hdep (Nat.le_of_not_lt hlt)
            rw [crawlPage_atmax fetch scoreFn mdWrite keywords domain maxDepth fuel url d s
              hvis hdeq html md cleaned hfe hmd]
            simp only [appendMd, appendRecord, markVisited, List.length_append,
              List.length_singleton]
            simp [pagesBound]
        · rw [crawlPage_mdfalse fetch scoreFn mdWrite keywords domain maxDepth fuel url d s
            hvis hdep html md cleaned hfe (eq_false_of_ne_true hmd)]
          simp only [appendRecord, markVisited, List.length_append, List.length_singleton]
          simp [pagesBound]

section SortLemmas

variable {α : Type}

theorem insertScored_perm (x : α × Nat) (l : List (α × Nat)) :
    List.Perm (insertScored x l) (x :: l) := by
  induction l with
  | nil => exact List.Perm.refl _
  | cons y ys ih =>
    rw [insertScored]
    by_cases h : y.2 < x.2
    · rw [if_pos h]
    · rw [if_neg h]
      exact List.Perm.trans (List.Perm.cons y ih) (List.Perm.swap x y ys)

theorem pySortDesc_go_perm (l : List (α × Nat)) :
    ∀ acc : List (α × Nat),
      List.Perm (List.foldl (fun acc x => insertScored x acc) acc l) (l ++ acc) := by
  induction l with
  | nil => intro acc; simp
  | cons a t ih =>
    intro acc
    have h1 := ih (insertScored a acc)
    have h2 : List.Perm (t ++ insertScored a acc) (t ++ (a :: acc)) :=
      List.Perm.append_left t (insertScored_perm a acc)
    have h3 : List.Perm (t ++ (a :: acc)) (a :: (t ++ acc)) := List.perm_middle
    simpa using List.Perm.trans h1 (List.Perm.trans h2 h3)

/-- The sort is a permutation of its input. -/
theorem pySortDesc_perm (l : List (α × Nat)) : List.Perm (pySortDesc l) l := by
  have h := pySortDesc_go_perm l []
  simpa [pySortDesc] using h

/-- Sortedness: scores are non-increasing along the result. -/
def SortedDesc (l : List (α × Nat)) : Prop :=
  List.Pairwise (fun a b => b.2 ≤ a.2) l

theorem insertScored_sorted {x : α × Nat} {l : List (α × Nat)}
    (h : SortedDesc l) : SortedDesc (insertScored x l) := by
  induction l with
  | nil => exact List.pairwise_singleton _ _
  | cons y ys ih =>
    rw [SortedDesc, List.pairwise_cons] at h
    obtain ⟨hy, hys⟩ := h
    rw [insertScored]
    by_cases hlt : y.2 < x.2
    · rw [if_pos hlt]
      rw [SortedDesc, List.pairwise_cons]
      refine ⟨?_, List.pairwise_cons.mpr ⟨hy, hys⟩⟩
      intro b hb
      rcases List.mem_cons.mp hb with h | h
      · subst h; exact Nat.le_of_lt hlt
      · exact Nat.le_trans (hy b h) (Nat.le_of_lt hlt)
    · rw [if_neg hlt]
      rw [SortedDesc, List.pairwise_cons]
      refine ⟨?_, ih hys⟩
      intro b hb
      have := (insertScored_perm x ys).mem_iff.mp hb
      rcases List.mem_cons.mp this with h | h
      · subst h; exact Nat.le_of_not_lt hlt
      · exact hy b h

theorem pySortDesc_sorted (l : List (α × Nat)) : SortedDesc (pySortDesc l) := by
  rw [pySortDesc]
  have : ∀ (m : List (α × Nat)) (acc : List (α × Nat)), SortedDesc acc →
      SortedDesc (List.foldl (fun acc x => insertScored x acc) acc m) := by
    intro m
    induction m with
    | nil => intro acc h; exact h
    | cons a t ih => intro acc h; exact ih _ (insertScored_sorted h)
  exact this l [] (List.Pairwise.nil)

/-- Stability: filtering the sorted output at any fixed score recovers the
input entries of that score in their original order — Python's stable sort
with `reverse=True` keeps equal-score entries in discovery order. -/
theorem insertScored_filter (k : Nat) {x : α × Nat} {l : List (α × Nat)}
    (h : SortedDesc l) :
    (insertScored x l).filter (fun z => z.2 == k)
      = if x.2 == k then l.filter (fun z => z.2 == k) ++ [x]
        else l.filter (fun z => z.2 == k) := by
  induction l with
  | nil =>
    rw [insertScored]
    by_cases hx : (x.2 == k) = true
    · simp [hx]
    · simp [hx]
  | cons y ys ih =>
    rw [SortedDesc, List.pairwise_cons] at h
    obtain ⟨hy, hys⟩ := h
    rw [insertScored]
    by_cases hlt : y.2 < x.2
    · rw [if_pos hlt]
      by_cases hx : (x.2 == k) = true
      · have hxk : x.2 = k := by simpa using hx
        have hnone : (y :: ys).filter (fun z => z.2 == k) = [] := by
          apply List.filter_eq_nil_iff.mpr
          intro a ha
          rcases List.mem_cons.mp ha with h | h
          · subst h
            simp only [beq_iff_eq]
            omega
          · have : a.2 ≤ y.2 := hy a h
            simp only [beq_iff_eq]
            omega
        simp [List.filter_cons, hx, hnone, List.filter_eq_nil_iff.mp hnone]
      · simp [List.filter_cons, hx]
    · rw [if_neg hlt]
      simp only [List.filter_cons]
      rw [ih hys]
      by_cases hyk : (y.2 == k) = true
      · by_cases hx : (x.2 == k) = true
        · simp [hyk, hx]
        · simp [hyk, hx]
      · by_cases hx : (x.2 == k) = true
        · simp [hyk, hx]
        · simp [hyk, hx]

theorem pySortDesc_filter (k : Nat) (l : List (α × Nat)) :
    (pySortDesc l).filter (fun z => z.2 == k) = l.filter (fun z => z.2 == k) := by
  rw [pySortDesc]
  have main : ∀ (m : List (α × Nat)) (acc : List (α × Nat)), SortedDesc acc →
      (List.foldl (fun acc x => insertScored x acc) acc m).filter (fun z => z.2 == k)
        = acc.filter (fun z => z.2 == k) ++ m.filter (fun z => z.2 == k) := by
    intro m
    induction m with
    | nil => intro acc h; simp
    | cons a t ih =>
      intro acc h
      rw [List.foldl_cons]
      rw [ih _ (insertScored_sorted h)]
      rw [insertScored_filter k h]
      by_cases ha : (a.2 == k) = true
      · rw [if_pos ha]
        simp [List.filter_cons, ha]
      · rw [if_neg ha]
        simp [List.filter_cons, ha]
  have := main l [] List.Pairwise.nil
  simpa using this

end SortLemmas

/-- In a descending-sorted list, every kept entry of `take n` scores at
least every dropped entry of `drop n`. -/
theorem sortedDesc_take_ge {α : Type} {l : List (α × Nat)} (n : Nat)
    (hs : SortedDesc l) :
    ∀ p ∈ l.take n, ∀ q ∈ l.drop n, q.2 ≤ p.2 := by
  have hsplit : l.take n ++ l.drop n = l := List.take_append_drop n l
  rw [SortedDesc] at hs
  rw [← hsplit, List.pairwise_append] at hs
  exact hs.2.2

theorem selectLinks_sub (keywords : List String) (links : List Url) :
    ∀ p ∈ selectLinks keywords links,
      p.1 ∈ links.take 10 ∧ p.2 = urlHeuristic keywords p.1 := by
  intro p hp
  have h1 : p ∈ pySortDesc (scoreLinks keywords links) :=
    List.mem_of_mem_take hp
  have h2 : p ∈ scoreLinks keywords links :=
    (pySortDesc_perm (scoreLinks keywords links)).mem_iff.mp h1
  rw [scoreLinks, List.mem_map] at h2
  obtain ⟨link, hlink, rfl⟩ := h2
  exact ⟨hlink, rfl⟩

/-!  Concrete fixtures: small fetcher stubs used by counterexamples and
witnesses.  All hosts are `h`, so every URL below is in scope.  -/

def mkU (p : String) : Url := { host := "h", path := p, frag := "" }

def u0 : Url := mkU "/"

def htmlNoLinks : Html := { title := none, anchors := [], body := "" }

def okNoLinks : FetchResult := FetchResult.success htmlNoLinks "" ""

def scoreZero : Html → Option Int := fun _ => some 0

def mdAlwaysOk : PageRecord → Bool := fun _ => true

/-- A fetcher giving every page five fresh children, except that the
depth-2 page `/00` fails. -/
def fetchTree (u : Url) : FetchResult :=
  if u = mkU "/00" then FetchResult.failure "boom"
  else FetchResult.success
    { title := none
      anchors := ["0", "1", "2", "3", "4"].map (fun d => Href.abs (mkU (u.path ++ d)))
      body := "" } "" ""

def cTree : Collab :=
  { fetch := fetchTree, scoreFn := scoreZero, mdWrite := mdAlwaysOk, pdf := PdfBehavior.ok }

/-- Seed links to `/b1` (whose fetch fails) and `/b2`. -/
def fetchFailMid (u : Url) : FetchResult :=
  if u = u0 then FetchResult.success
    { title := none, anchors := [Href.abs (mkU "/b1"), Href.abs (mkU "/b2")], body := "" } "" ""
  else if u = mkU "/b1" then FetchResult.failure "boom"
  else okNoLinks

def cFailMid : Collab :=
  { fetch := fetchFailMid, scoreFn := scoreZero, mdWrite := mdAlwaysOk, pdf := PdfBehavior.ok }

/-- Seed links to `/api` (heuristic score 1) and `/c` (score 0); `/api`
links to `/c` again, so `/c` is discovered from two different pages but
fetched only after the depth-first descent through `/api`. -/
def htmlSeedTwo : Html :=
  { title := none, anchors := [Href.abs (mkU "/api"), Href.abs (mkU "/c")], body := "" }

def htmlApi : Html :=
  { title := none, anchors := [Href.abs (mkU "/c")], body := "" }

def fetchTwoPaths (u : Url) : FetchResult :=
  if u = u0 then FetchResult.success htmlSeedTwo "" ""
  else if u = mkU "/api" then FetchResult.success htmlApi "" ""
  else okNoLinks

def cTwoPaths : Collab :=
  { fetch := fetchTwoPaths, scoreFn := scoreZero, mdWrite := mdAlwaysOk, pdf := PdfBehavior.ok }

/-- Seed page with eleven links: ten scoring 0 and an eleventh, `/api`,
scoring 1 — beyond the `links[:10]` cut. -/
def htmlEleven : Html :=
  { title := none
    anchors := (["/z0", "/z1", "/z2", "/z3", "/z4", "/z5", "/z6", "/z7", "/z8", "/z9"].map
      (fun p => Href.abs (mkU p))) ++ [Href.abs (mkU "/api")]
    body := "" }

def fetchEleven (u : Url) : FetchResult :=
  if u = u0 then FetchResult.success htmlEleven "" "" else okNoLinks

def cEleven : Collab :=
  { fetch := fetchEleven, scoreFn := scoreZero, mdWrite := mdAlwaysOk, pdf := PdfBehavior.ok }

/-- Everything fetches fine, but the markdown write for `/b1` raises. -/
def fetchThree (u : Url) : FetchResult :=
  if u = u0 then FetchResult.success
    { title := none, anchors := [Href.abs (mkU "/b1"), Href.abs (mkU "/b2")], body := "" } "" ""
  else okNoLinks

def mdFailB1 : PageRecord → Bool := fun r => !(r.url == mkU "/b1")

def cMdFail : Collab :=
  { fetch := fetchThree, scoreFn := scoreZero, mdWrite := mdFailB1, pdf := PdfBehavior.ok }

/-- All fetches fail; the PDF backend raises a non-ImportError. -/
def fetchAllFail : Url → FetchResult := fun _ => FetchResult.failure "down"

def cPdfBoom : Collab :=
  { fetch := fetchAllFail, scoreFn := scoreZero, mdWrite := mdAlwaysOk,
    pdf := PdfBehavior.buildError "boom" }

/-- One successful page, no links at all. -/
def fetchLonely : Url → FetchResult := fun _ => okNoLinks

def cLonely : Collab :=
  { fetch := fetchLonely, scoreFn := scoreZero, mdWrite := mdAlwaysOk, pdf := PdfBehavior.ok }

def recLonely : PageRecord :=
  { page_num := 1, url := u0, title := "No Title", score := 0, content := "", depth := 0 }

/-!  The claims.  -/

/-- C1 counterexample: with the five-children-per-page fetcher, the run
visits 31 URLs (the full depth-2 tree) but records only 30 pages because
the fetch of `/00` fails — so `len(VisitedSet)` differs from
`total_pages`, and `total_pages` also exceeds the configured maximum of
25, which the traversal never consults. -/
theorem c1_counterexample :
    (runCrawler cTree u0 2).state.visited.length
        ≠ (runCrawler cTree u0 2).report.total_pages ∧
    ¬ ((runCrawler cTree u0 2).report.total_pages ≤ 25) := by
  decide

/-- C1 (amended): `total_pages` equals the number of page records, which
is at most the size of the visited set (they differ exactly by the failed
fetches), and the only bound on it is the geometric depth/fan-out bound —
31 for the configured `max_depth = 2` — not the unenforced `max_pages
= 25`. -/
theorem c1_amended_total_pages (c : Collab) (baseUrl : Url) :
    (runCrawler c baseUrl 2).report.total_pages
        = (runCrawler c baseUrl 2).state.pages.length ∧
    (runCrawler c baseUrl 2).state.pages.length
        ≤ (runCrawler c baseUrl 2).state.visited.length ∧
    (runCrawler c baseUrl 2).state.pages.length ≤ 31 := by
  have hinv := runCrawler_inv c baseUrl 2
  refine ⟨rfl, le_trans hinv.pages_le (le_of_eq hinv.count_eq), ?_⟩
  have h := crawlPage_pages_le c.fetch c.scoreFn c.mdWrite sailpointKeywords
    baseUrl.host 2 3 baseUrl 0 initialState
  have hb : pagesBound 3 = 31 := rfl
  have h0 : initialState.pages.length = 0 := rfl
  rw [hb, h0] at h
  exact h

/-- C2 counterexample: `/c` is discovered both from the seed page (depth
0, so first discovered for crawling at depth 1) and from `/api` (depth 1);
it is fetched exactly once and recorded exactly once, but with depth 2 —
the depth of the depth-first descent through `/api` — not the minimum
discovery depth 1. -/
theorem c2_counterexample :
    (mkU "/c") ∈ extract_links "h" [u0] u0 htmlSeedTwo.anchors ∧
    (mkU "/c") ∈ extract_links "h" [mkU "/api", u0] (mkU "/api") htmlApi.anchors ∧
    (runCrawler cTwoPaths u0 2).state.fetchLog.count (mkU "/c") = 1 ∧
    ((runCrawler cTwoPaths u0 2).state.pages.filter
      (fun r => r.url == mkU "/c")).map PageRecord.depth = [2] ∧
    ((runCrawler cTwoPaths u0 2).state.pages.filter
      (fun r => r.url == u0)).map PageRecord.depth = [0] := by
  decide

/-- C2 (amended): a URL reachable from several pages is indeed fetched at
most once and recorded at most once — the visited check at the head of
`crawl_page` guarantees both — but its recorded depth is the depth at
which the depth-first traversal happens to reach it first, which can
exceed the minimum depth at which it was discovered. -/
theorem c2_amended_at_most_once (c : Collab) (baseUrl : Url) (maxDepth : Nat) :
    (runCrawler c baseUrl maxDepth).state.fetchLog.Nodup ∧
    ((runCrawler c baseUrl maxDepth).state.pages.map PageRecord.url).Nodup :=
  ⟨(runCrawler_inv c baseUrl maxDepth).fetchLog_nodup,
   (runCrawler_inv c baseUrl maxDepth).pages_url_nodup⟩

/-- C3 counterexample: the seed page carries eleven in-scope fresh links;
`/api`, the eleventh, is the unique link of maximal heuristic score, yet
the `links[:10]` truncation at line 137 happens before scoring, so the
five submitted links all score 0 and `/api` is never fetched. -/
theorem c3_counterexample :
    (mkU "/api") ∈ extract_links "h" [u0] u0 htmlEleven.anchors ∧
    urlHeuristic sailpointKeywords (mkU "/api") = 1 ∧
    ((extract_links "h" [u0] u0 htmlEleven.anchors).filter
      (fun l => !(l == mkU "/api"))).all
        (fun l => urlHeuristic sailpointKeywords l == 0) = true ∧
    (selectLinks sailpointKeywords (extract_links "h" [u0] u0 htmlEleven.anchors)).all
      (fun p => !(p.1 == mkU "/api")) = true ∧
    (mkU "/api") ∉ (runCrawler cEleven u0 2).state.fetchLog := by
  decide

/-- C3 (amended): at most five links are submitted per page, pre-ranked by
`urlHeuristic` in descending order with their correct scores — but they are
the top five of the first ten extracted links only, and dominate only the
remaining entries of that truncated set. -/
theorem c3_amended_selection (keywords : List String) (links : List Url) :
    (selectLinks keywords links).length ≤ 5 ∧
    (∀ p ∈ selectLinks keywords links,
       p.1 ∈ links.take 10 ∧ p.2 = urlHeuristic keywords p.1) ∧
    SortedDesc (selectLinks keywords links) ∧
    (∀ p ∈ selectLinks keywords links,
       ∀ q ∈ (pySortDesc (scoreLinks keywords links)).drop 5, q.2 ≤ p.2) := by
  refine ⟨List.length_take_le _ _, selectLinks_sub keywords links, ?_, ?_⟩
  · exact List.Pairwise.sublist (List.take_sublist 5 _) (pySortDesc_sorted _)
  · intro p hp q hq
    exact sortedDesc_take_ge 5 (pySortDesc_sorted _) p hp q hq

/-- C3 witness: on a one-link page the single link is selected with its
heuristic score. -/
theorem c3_witness :
    (mkU "/api", 1).1 ∈ [mkU "/api"].take 10 ∧
    (mkU "/api", 1).2 = urlHeuristic sailpointKeywords (mkU "/api", 1).1 :=
  (c3_amended_selection sailpointKeywords [mkU "/api"]).2.1 (mkU "/api", 1) (by decide)

/-- C4 counterexample: with the seed linking to `/b1` (fetch fails) and
`/b2`, the recorded sequence numbers are `[1, 3]` — strictly increasing
but not the dense `1..N`, because the counter at line 79 is bumped for the
failed fetch as well. -/
theorem c4_counterexample :
    (runCrawler cFailMid u0 2).state.pages.map PageRecord.page_num
      ≠ List.range' 1 (runCrawler cFailMid u0 2).state.pages.length := by
  decide

/-- C4 (amended): sequence numbers are strictly increasing, positive and
bounded by the page counter, but not dense — a failed fetch consumes a
number without producing a record. -/
theorem c4_amended_sequence (c : Collab) (baseUrl : Url) (maxDepth : Nat) :
    List.Pairwise (fun a b => a < b)
      ((runCrawler c baseUrl maxDepth).state.pages.map PageRecord.page_num) ∧
    ∀ r ∈ (runCrawler c baseUrl maxDepth).state.pages,
      1 ≤ r.page_num ∧ r.page_num ≤ (runCrawler c baseUrl maxDepth).state.pageCount := by
  have hinv := runCrawler_inv c baseUrl maxDepth
  exact ⟨hinv.seq_sorted, fun r hr => ⟨hinv.seq_pos r hr, hinv.seq_le r hr⟩⟩

/-- C4 witness: the seed record of the failed-middle-fetch run has a
positive sequence number bounded by the final counter. -/
theorem c4_witness :
    1 ≤ recLonely.page_num ∧
    recLonely.page_num ≤ (runCrawler cFailMid u0 2).state.pageCount :=
  (c4_amended_sequence cFailMid u0 2).2 recLonely (by decide)

/-- C5: determinism and stable tie-break.  The run's report (which omits
the `crawl_date` timestamp) and its page-record sequence are a function of
the fetcher stub, the scorer, the markdown writer, the seed and the
budget alone — two sequential runs with the same stubs agree exactly —
and the descending sort is stable: entries of equal score stay in
discovery order. -/
theorem c5_determinism_and_stability :
    (∀ (cA cB : Collab) (baseUrl : Url) (maxDepth : Nat),
       cA.fetch = cB.fetch → cA.scoreFn = cB.scoreFn → cA.mdWrite = cB.mdWrite →
       (runCrawler cA baseUrl maxDepth).report = (runCrawler cB baseUrl maxDepth).report ∧
       (runCrawler cA baseUrl maxDepth).state.pages
         = (runCrawler cB baseUrl maxDepth).state.pages) ∧
    (∀ (l : List (Url × Nat)) (k : Nat),
       (pySortDesc l).filter (fun z => z.2 == k) = l.filter (fun z => z.2 == k)) := by
  constructor
  · intro cA cB baseUrl maxDepth h1 h2 h3
    rw [runCrawler, runCrawler, h1, h2, h3]
    exact ⟨rfl, rfl⟩
  · exact fun l k => pySortDesc_filter k l

def cLonelyPdfBoom : Collab := { cLonely with pdf := PdfBehavior.buildError "x" }

/-- C5 witness: two runs differing only in the PDF backend produce the
same report. -/
theorem c5_witness :
    (runCrawler cLonely u0 2).report = (runCrawler cLonelyPdfBoom u0 2).report :=
  (c5_determinism_and_stability.1 cLonely cLonelyPdfBoom u0 2 rfl rfl rfl).1

/-- C6: a URL whose fetch fails is never the URL of any page record, and
the call that selects it returns having only marked it visited, logged the
fetch and bumped the counter — the caller's loop over the remaining
candidates proceeds unchanged. -/
theorem c6_failure_isolation :
    (∀ (c : Collab) (baseUrl : Url) (maxDepth : Nat) (url : Url) (msg : String),
       c.fetch url = FetchResult.failure msg →
       ∀ r ∈ (runCrawler c baseUrl maxDepth).state.pages, r.url ≠ url) ∧
    (∀ (fetch : Url → FetchResult) (scoreFn : Html → Option Int)
       (mdWrite : PageRecord → Bool) (keywords : List String) (domain : String)
       (maxDepth fuel : Nat) (url : Url) (d : Nat) (s : CrawlState) (msg : String),
       url ∉ s.visited → d ≤ maxDepth → fetch url = FetchResult.failure msg →
       crawlPage fetch scoreFn mdWrite keywords domain maxDepth (fuel + 1) url d s
         = markVisited url s) := by
  constructor
  · intro c baseUrl maxDepth url msg hfe r hr heq
    obtain ⟨h, m, cl, hsucc⟩ := (runCrawler_inv c baseUrl maxDepth).pages_success r hr
    rw [heq, hfe] at hsucc
    exact FetchResult.noConfusion hsucc
  · intro fetch scoreFn mdWrite keywords domain maxDepth fuel url d s msg hvis hdep hfe
    exact crawlPage_failure fetch scoreFn mdWrite keywords domain maxDepth fuel url d s
      hvis hdep msg hfe

/-- C6 witness: in the run where `/b1` fails, the seed's record is not
`/b1`, and crawling `/b1` from a fresh state only marks it visited. -/
theorem c6_witness :
    recLonely.url ≠ mkU "/b1" ∧
    crawlPage fetchFailMid scoreZero mdAlwaysOk sailpointKeywords "h" 2 1
      (mkU "/b1") 0 initialState = markVisited (mkU "/b1") initialState :=
  ⟨c6_failure_isolation.1 cFailMid u0 2 (mkU "/b1") "boom" (by decide) recLonely (by decide),
   c6_failure_isolation.2 fetchFailMid scoreZero mdAlwaysOk sailpointKeywords "h" 2 0
     (mkU "/b1") 0 initialState "boom" (by decide) (by decide) (by decide)⟩

/-- C7 counterexample: when the PDF backend raises anything other than
`ImportError` — here an error while building the document — the exception
escapes `generate_pdf_report` (which catches `ImportError` only) and
aborts the run: the run's outcome is the propagated error, not success. -/
theorem c7_counterexample :
    (runCrawler cPdfBoom u0 2).pdfResult = Except.error "boom" := rfl

/-- C7 (amended): a missing-rendering-capability failure (`ImportError`)
is caught and the run completes; and whatever the PDF backend does, the
JSON report and the markdown artifact set are unaffected, because both are
written before the PDF step — only a non-ImportError PDF exception makes
the run itself fail, after those artifacts are on disk. -/
theorem c7_amended_pdf (c : Collab) (baseUrl : Url) (maxDepth : Nat) :
    (runCrawler { c with pdf := PdfBehavior.importError } baseUrl maxDepth).pdfResult
        = Except.ok none ∧
    (runCrawler c baseUrl maxDepth).report
        = (runCrawler { c with pdf := PdfBehavior.ok } baseUrl maxDepth).report ∧
    (runCrawler c baseUrl maxDepth).state.mdFiles
        = (runCrawler { c with pdf := PdfBehavior.ok } baseUrl maxDepth).state.mdFiles :=
  ⟨rfl, rfl, rfl⟩

/-- C8 counterexample: an HTML page whose anchors repeat the same href
yields that URL twice in the extracted list — `extract_links` never
deduplicates within its own output. -/
theorem c8_counterexample :
    ¬ (extract_links "h" [] u0 [Href.abs (mkU "/a"), Href.abs (mkU "/a")]).Nodup := by
  decide

/-- C8 (amended): every URL returned by `extract_links` is
fragment-stripped, has host exactly the seed's, and is not in the visited
set — but the list may contain duplicates. -/
theorem c8_amended_links (domain : String) (visited : List Url) (cur : Url)
    (anchors : List Href) :
    ∀ u ∈ extract_links domain visited cur anchors,
      u.frag = "" ∧ u.host = domain ∧ u ∉ visited := by
  intro u hu
  rw [extract_links, List.mem_filter] at hu
  obtain ⟨hmem, hcond⟩ := hu
  rw [List.mem_map] at hmem
  obtain ⟨h, hh, rfl⟩ := hmem
  rw [Bool.and_eq_true] at hcond
  obtain ⟨hvalid, hnvis⟩ := hcond
  refine ⟨rfl, ?_, ?_⟩
  · simpa [is_valid_url] using hvalid
  · intro hmem2
    rw [Bool.not_eq_true'] at hnvis
    simp only [decide_eq_false_iff_not] at hnvis
    exact hnvis hmem2

/-- C8 witness: a fragment-carrying in-scope anchor is returned stripped,
in scope and unvisited. -/
theorem c8_witness :
    (mkU "/a").frag = "" ∧ (mkU "/a").host = "h" ∧ (mkU "/a") ∉ [mkU "/z"] :=
  c8_amended_links "h" [mkU "/z"] u0
    [Href.abs { host := "h", path := "/a", frag := "x" }] (mkU "/a") (by decide)

/-- C9: every page record of every run has depth at most the configured
maximum: the guard at line 75 refuses deeper calls and recursion only
happens strictly below the bound. -/
theorem c9_depth_bound (c : Collab) (baseUrl : Url) (maxDepth : Nat) :
    ∀ r ∈ (runCrawler c baseUrl maxDepth).state.pages, r.depth ≤ maxDepth :=
  (runCrawler_inv c baseUrl maxDepth).pages_depth

/-- C9 witness: the sole record of the one-page run has depth 0 ≤ 2. -/
theorem c9_witness : recLonely.depth ≤ 2 :=
  c9_depth_bound cLonely u0 2 recLonely (by decide)

/-- C10: when the markdown write for a page raises, the record appended
just before (line 114 precedes line 117) stays: the crawl returns from
that page having kept the record and written no file, and continues with
the remaining candidates.  In the concrete run where the write for `/b1` fails,
the JSON report counts 3 pages — `/b1` included — while only 2 markdown
files exist, so the two artifact sets disagree. -/
theorem c10_md_failure :
    (∀ (fetch : Url → FetchResult) (scoreFn : Html → Option Int)
       (mdWrite : PageRecord → Bool) (keywords : List String) (domain : String)
       (maxDepth fuel : Nat) (url : Url) (d : Nat) (s : CrawlState)
       (html : Html) (md cleaned : String),
       url ∉ s.visited → d ≤ maxDepth →
       fetch url = FetchResult.success html md cleaned →
       mdWrite (mkRecord scoreFn url d (s.pageCount + 1) html md cleaned) = false →
       crawlPage fetch scoreFn mdWrite keywords domain maxDepth (fuel + 1) url d s
         = appendRecord (mkRecord scoreFn url d (s.pageCount + 1) html md cleaned)
             (markVisited url s)) ∧
    (runCrawler cMdFail u0 2).report.total_pages = 3 ∧
    (runCrawler cMdFail u0 2).state.mdFiles.length = 2 ∧
    ((runCrawler cMdFail u0 2).state.pages.filter
      (fun r => r.url == mkU "/b1")).length = 1 := by
  refine ⟨?_, by decide, by decide, by decide⟩
  intro fetch scoreFn mdWrite keywords domain maxDepth fuel url d s html md cleaned
    hvis hdep hfe hmd
  exact crawlPage_mdfalse fetch scoreFn mdWrite keywords domain maxDepth fuel url d s
    hvis hdep html md cleaned hfe hmd

/-- C10 witness: crawling `/b1` from a fresh state with the failing
markdown writer appends the record and nothing else. -/
theorem c10_witness :
    crawlPage fetchThree scoreZero mdFailB1 sailpointKeywords "h" 2 1
      (mkU "/b1") 0 initialState
      = appendRecord (mkRecord scoreZero (mkU "/b1") 0 1 htmlNoLinks "" "")
          (markVisited (mkU "/b1") initialState) :=
  c10_md_failure.1 fetchThree scoreZero mdFailB1 sailpointKeywords "h" 2 0
    (mkU "/b1") 0 initialState htmlNoLinks "" "" (by decide) (by decide)
    (by decide) (by decide)
